import Mathlib

/-
Verification development for the Codemia job-orchestration pipeline.

The definitions below are shallow embeddings of the JavaScript source:
 * `Extraction` embeds `parseAIResponse` (services/planningEngine.js and the
   identical copies in the per-platform agents of services/codeGenerator.js).
 * `Store` embeds `JobManager` (services/jobManager.js) over generic
   field records, mirroring JavaScript object-spread merge semantics.
 * `Pipeline` embeds the async runners `generateAppAsync` (routes/generate.js)
   and `analyzeCodeAsync` (routes/analyze.js) as the sequence of job updates
   they perform, plus `calculateEstimatedTime` (routes/status.js).
 * `Coordinator` embeds `CodeGenerator.generateMultiPlatformApp`.
-/

namespace Extraction

/-- Backtick character, written via its code point. -/
def btick : Char := Char.ofNat 96

/-- Opening curly brace character, written via its code point. -/
def lbrace : Char := Char.ofNat 123

/-- Closing curly brace character, written via its code point. -/
def rbrace : Char := Char.ofNat 125

/-- Whitespace as matched by the JavaScript regex class backslash-s
(ASCII portion; the inputs considered here are ASCII). -/
def jsWs (c : Char) : Bool :=
  c = ' ' || c = '\t' || c = '\n' || c = '\r' || c = Char.ofNat 11 || c = Char.ofNat 12

/-- Structured JSON-like value, the result type of the stand-in parser. -/
inductive Json where
  | null : Json
  | bool (b : Bool) : Json
  | num (n : Int) : Json
  | str (s : String) : Json
  | arr (elems : List Json) : Json
  | obj (fields : List (String × Json)) : Json

/-- Whitespace accepted by JSON between tokens. -/
def jsonWsChar (c : Char) : Bool :=
  c = ' ' || c = '\t' || c = '\n' || c = '\r'

/-- Drop leading JSON whitespace. -/
def skipWs (l : List Char) : List Char := l.dropWhile jsonWsChar

/-- Read the body of a double-quoted string up to the closing quote
(escape sequences are not needed for the inputs used here). -/
def parseStrChars : List Char → Option (List Char × List Char)
  | [] => none
  | c :: rest =>
    if c = '"' then some ([], rest)
    else
      match parseStrChars rest with
      | some (s, r) => some (c :: s, r)
      | none => none

/-- Decimal digits to a natural number. -/
def digitsToNat : List Char → Nat → Nat
  | [], acc => acc
  | c :: rest, acc => digitsToNat rest (acc * 10 + (c.toNat - 48))

mutual

/-- Fuel-indexed JSON value reader: a concrete, executable stand-in for the
external `JSON.parse` collaborator (integer numerals, escape-free strings;
all theorems about the extraction tiers quantify over an arbitrary parse
function, this one only grounds concrete witnesses). -/
def parseVal : Nat → List Char → Except String (Json × List Char)
  | 0, _ => .error "bad json"
  | fuel + 1, l =>
    match skipWs l with
    | [] => .error "bad json"
    | 'n' :: 'u' :: 'l' :: 'l' :: rest => .ok (.null, rest)
    | 't' :: 'r' :: 'u' :: 'e' :: rest => .ok (.bool true, rest)
    | 'f' :: 'a' :: 'l' :: 's' :: 'e' :: rest => .ok (.bool false, rest)
    | '"' :: rest =>
      match parseStrChars rest with
      | some (s, r) => .ok (.str (String.mk s), r)
      | none => .error "bad json"
    | '-' :: rest =>
      let ds := rest.takeWhile Char.isDigit
      if ds.isEmpty then .error "bad json"
      else .ok (.num (-(Int.ofNat (digitsToNat ds 0))), rest.dropWhile Char.isDigit)
    | '[' :: rest => parseArr fuel (skipWs rest)
    | c :: rest =>
      if c = lbrace then parseObj fuel (skipWs rest)
      else if c.isDigit then
        .ok (.num (Int.ofNat (digitsToNat ((c :: rest).takeWhile Char.isDigit) 0)),
             (c :: rest).dropWhile Char.isDigit)
      else .error "bad json"

/-- Array tail after the opening bracket. -/
def parseArr : Nat → List Char → Except String (Json × List Char)
  | 0, _ => .error "bad json"
  | fuel + 1, l =>
    match l with
    | ']' :: rest => .ok (.arr [], rest)
    | _ => parseArrLoop fuel l []

/-- Comma-separated array elements. -/
def parseArrLoop : Nat → List Char → List Json → Except String (Json × List Char)
  | 0, _, _ => .error "bad json"
  | fuel + 1, l, acc =>
    match parseVal fuel l with
    | .error e => .error e
    | .ok (v, r) =>
      match skipWs r with
      | ',' :: rest => parseArrLoop fuel rest (acc ++ [v])
      | ']' :: rest => .ok (.arr (acc ++ [v]), rest)
      | _ => .error "bad json"

/-- Object tail after the opening brace. -/
def parseObj : Nat → List Char → Except String (Json × List Char)
  | 0, _ => .error "bad json"
  | fuel + 1, l =>
    match l with
    | c :: rest => if c = rbrace then .ok (.obj [], rest) else parseObjLoop fuel l []
    | [] => .error "bad json"

/-- Comma-separated object members. -/
def parseObjLoop : Nat → List Char → List (String × Json) → Except String (Json × List Char)
  | 0, _, _ => .error "bad json"
  | fuel + 1, l, acc =>
    match skipWs l with
    | '"' :: rest =>
      match parseStrChars rest with
      | some (k, r) =>
        match skipWs r with
        | ':' :: r2 =>
          match parseVal fuel r2 with
          | .ok (v, r3) =>
            match skipWs r3 with
            | ',' :: r4 => parseObjLoop fuel r4 (acc ++ [(String.mk k, v)])
            | c :: r4 =>
              if c = rbrace then .ok (.obj (acc ++ [(String.mk k, v)]), r4)
              else .error "bad json"
            | [] => .error "bad json"
          | .error e => .error e
        | _ => .error "bad json"
      | none => .error "bad json"
    | _ => .error "bad json"

end

/-- Concrete stand-in for the external `JSON.parse`: whole-input parse with a
trailing-garbage check.  Its error strings stand for the engine-specific
`SyntaxError` messages. -/
def jsonParse (text : String) : Except String Json :=
  match parseVal (text.length * 4 + 8) text.data with
  | .ok (v, rest) => if (skipWs rest).isEmpty then .ok v else .error "bad json"
  | .error e => .error e

/-- Suffix after the first occurrence of a triple backtick. -/
def dropToTicks : List Char → Option (List Char)
  | a :: b :: c :: rest =>
    if a = btick ∧ b = btick ∧ c = btick then some rest
    else dropToTicks (b :: c :: rest)
  | _ => none

/-- Split at the first occurrence of a triple backtick: the part before it and
the part after it. -/
def splitAtTicks : List Char → Option (List Char × List Char)
  | a :: b :: c :: rest =>
    if a = btick ∧ b = btick ∧ c = btick then some ([], rest)
    else
      match splitAtTicks (b :: c :: rest) with
      | some (pre, post) => some (a :: pre, post)
      | none => none
  | _ => none

/-- Consume an optional literal `json` tag, mirroring the regex group
`(?:json)?`. -/
def stripJsonTag : List Char → List Char
  | 'j' :: 's' :: 'o' :: 'n' :: rest => rest
  | l => l

/-- Remove trailing regex whitespace. -/
def rstripWs (l : List Char) : List Char := (l.reverse.dropWhile jsWs).reverse

/-- Captured group of the first match of the fenced-block regex
(triple backtick, optional `json` tag, lazily captured interior, closing
triple backtick), then the JavaScript truthiness test `jsonMatch && jsonMatch[1]`:
`none` exactly when the regex does not match or captures an empty group. -/
def fenceGroup (text : String) : Option String :=
  match dropToTicks text.data with
  | none => none
  | some afterOpen =>
    match splitAtTicks ((stripJsonTag afterOpen).dropWhile jsWs) with
    | none => none
    | some (pre, _) =>
      let g := rstripWs pre
      if g.isEmpty then none else some (String.mk g)

/-- Substring from the first opening brace to the last closing brace inclusive,
mirroring `indexOf`/`lastIndexOf` and the guard `lastBrace > firstBrace`. -/
def braceSlice (text : String) : Option String :=
  let l := text.data
  match l.findIdx? (fun c => c = lbrace), l.reverse.findIdx? (fun c => c = rbrace) with
  | some f, some kr =>
    let la := l.length - 1 - kr
    if f < la then some (String.mk ((l.drop f).take (la - f + 1))) else none
  | _, _ => none

/-- First 200 characters, mirroring `responseText.substring(0, 200)`. -/
def take200 (s : String) : String := String.mk (s.data.take 200)

/-- JavaScript `String.prototype.trim`. -/
def trimWs (s : String) : String :=
  String.mk (((s.data.dropWhile jsWs).reverse.dropWhile jsWs).reverse)

/-- Message of the error thrown when no extraction candidate exists. -/
def extractMsg (sample : String) : String :=
  "Could not extract JSON from AI response: " ++ sample

/-- Message wrapper applied by the catch-all repair handler. -/
def processMsg (m : String) : String :=
  "Could not process AI response: " ++ m

/-- Shallow embedding of `parseAIResponse` (planningEngine.js lines 125-163 and
the identical agent copies): direct parse, else the fenced-block group, else
the first-brace/last-brace slice, else the sample-carrying throw; every error
raised inside the repair block is rewrapped by the outer catch. -/
def parseAIResponse {α : Type} (parse : String → Except String α) (text : String) :
    Except String α :=
  match parse text with
  | .ok v => .ok v
  | .error _initialError =>
    let inner : Except String α :=
      match fenceGroup text with
      | some g => parse (trimWs g)
      | none =>
        match braceSlice text with
        | some s => parse s
        | none => .error (extractMsg (take200 text))
    match inner with
    | .ok v => .ok v
    | .error repairMsg => .error (processMsg repairMsg)

/-- Rewrapping of an inner tier outcome by the repair catch block. -/
def wrapInner {α : Type} : Except String α → Except String α
  | .ok v => .ok v
  | .error m => .error (processMsg m)

/-- Tier 1 would deliver a value: the whole text parses. -/
def tier1Recovers {α : Type} (parse : String → Except String α) (text : String) : Prop :=
  ∃ v : α, parse text = .ok v

/-- Tier 2 would deliver a value: a fenced block is found and its interior parses. -/
def tier2Recovers {α : Type} (parse : String → Except String α) (text : String) : Prop :=
  ∃ g, ∃ v : α, fenceGroup text = some g ∧ parse (trimWs g) = .ok v

/-- Tier 3 would deliver a value: a brace slice exists and parses. -/
def tier3Recovers {α : Type} (parse : String → Except String α) (text : String) : Prop :=
  ∃ s, ∃ v : α, braceSlice text = some s ∧ parse s = .ok v

end Extraction

namespace Extraction

/-- C3: for every parse function and input text, extraction follows the strict
four-tier precedence: the whole-text parse's value when it parses; otherwise,
when a fenced block is found, the parsed interior of that block (braces in the
text are never consulted); otherwise, when a first-opening-brace to
last-closing-brace slice exists, its parse; otherwise the sample-carrying
failure.  A later tier is never tried before an earlier one, and whenever an
earlier tier fails to apply the next one is attempted. -/
theorem claim_C3 {α : Type} (parse : String → Except String α) (text : String) :
    (∀ v, parse text = .ok v → parseAIResponse parse text = .ok v) ∧
    (∀ e g, parse text = .error e → fenceGroup text = some g →
      parseAIResponse parse text = wrapInner (parse (trimWs g))) ∧
    (∀ e s, parse text = .error e → fenceGroup text = none → braceSlice text = some s →
      parseAIResponse parse text = wrapInner (parse s)) ∧
    (∀ e, parse text = .error e → fenceGroup text = none → braceSlice text = none →
      parseAIResponse parse text = .error (processMsg (extractMsg (take200 text)))) := by
  refine ⟨?_, ?_, ?_, ?_⟩
  · intro v h
    simp [parseAIResponse, h]
  · intro e g h hf
    simp only [parseAIResponse, h, hf]
    cases parse (trimWs g) <;> simp [wrapInner]
  · intro e s h hf hb
    simp only [parseAIResponse, h, hf, hb]
    cases parse s <;> simp [wrapInner]
  · intro e h hf hb
    simp [parseAIResponse, h, hf, hb]

/-- Witness for C3 at concrete inputs: one per tier. -/
theorem claim_C3_witness :
    parseAIResponse jsonParse "null" = Except.ok Json.null ∧
    parseAIResponse jsonParse "pre ```json\n\x7b\"a\": 1\x7d\n``` post" =
      wrapInner (jsonParse (trimWs "\x7b\"a\": 1\x7d")) ∧
    parseAIResponse jsonParse "Here: \x7b\"a\": 1\x7d done." =
      wrapInner (jsonParse "\x7b\"a\": 1\x7d") ∧
    parseAIResponse jsonParse "hello" =
      Except.error (processMsg (extractMsg (take200 "hello"))) := by
  refine ⟨?_, ?_, ?_, ?_⟩
  · exact (claim_C3 jsonParse "null").1 Json.null rfl
  · exact (claim_C3 jsonParse "pre ```json\n\x7b\"a\": 1\x7d\n``` post").2.1
      "bad json" "\x7b\"a\": 1\x7d" rfl (by decide)
  · exact (claim_C3 jsonParse "Here: \x7b\"a\": 1\x7d done.").2.2.1
      "bad json" "\x7b\"a\": 1\x7d" rfl (by decide) (by decide)
  · exact (claim_C3 jsonParse "hello").2.2.2 "bad json" rfl (by decide) (by decide)

/-- C4 counterexample: on the input consisting of one fenced block with an
unparseable interior (and no braces anywhere), every one of the three parsing
tiers fails to recover a value, yet the raised error does not carry any
truncation of the input: it carries the fence-tier parse failure's message
instead.  This refutes the claim that whenever all three tiers fail the
`ExtractionError` carries a truncated (at most 500 character) sample of the
input. -/
theorem claim_C4_counterexample :
    ¬ tier1Recovers jsonParse "```json\nnotjson\n```" ∧
    ¬ tier2Recovers jsonParse "```json\nnotjson\n```" ∧
    ¬ tier3Recovers jsonParse "```json\nnotjson\n```" ∧
    ¬ (∃ k, k ≤ 500 ∧ parseAIResponse jsonParse "```json\nnotjson\n```" =
        .error (processMsg (extractMsg
          (String.mk (("```json\nnotjson\n```" : String).data.take k))))) := by
  refine ⟨?_, ?_, ?_, ?_⟩
  · rintro ⟨v, hv⟩
    rw [show jsonParse "```json\nnotjson\n```" = Except.error "bad json" from rfl] at hv
    exact Except.noConfusion hv
  · rintro ⟨g, v, hg, hv⟩
    rw [show fenceGroup "```json\nnotjson\n```" = some "notjson" from by decide] at hg
    cases hg
    rw [show jsonParse (trimWs "notjson") = Except.error "bad json" from rfl] at hv
    exact Except.noConfusion hv
  · rintro ⟨s, v, hs, hv⟩
    rw [show braceSlice "```json\nnotjson\n```" = none from by decide] at hs
    exact Option.noConfusion hs
  · rintro ⟨k, -, h⟩
    rw [show parseAIResponse jsonParse "```json\nnotjson\n```" =
        Except.error (processMsg "bad json") from rfl] at h
    have h2 := congrArg String.length (Except.error.inj h)
    simp only [processMsg, extractMsg, String.length_append] at h2
    rw [show ("bad json" : String).length = 8 from rfl,
        show ("Could not extract JSON from AI response: " : String).length = 41 from rfl] at h2
    omega

/-- C4 as amended: when no value can be recovered by any of the three tiers,
extraction always raises an error and never returns a value; the error
carries the truncated (200 character, hence at most 500 character) input
sample exactly in the case where there was no fenced block and no brace
slice to attempt — when a tier-2 or tier-3 parse attempt was made and
failed, the error carries that parse failure's message instead. -/
theorem claim_C4 {α : Type} (parse : String → Except String α) (text : String)
    (h1 : ¬ tier1Recovers parse text) (h2 : ¬ tier2Recovers parse text)
    (h3 : ¬ tier3Recovers parse text) :
    (∃ m, parseAIResponse parse text = .error m) ∧
    (fenceGroup text = none → braceSlice text = none →
      parseAIResponse parse text = .error (processMsg (extractMsg (take200 text))) ∧
      (take200 text).length ≤ 500) := by
  have hp : ∃ e, parse text = .error e := by
    cases hp : parse text with
    | ok v => exact absurd ⟨v, hp⟩ h1
    | error e => exact ⟨e, rfl⟩
  obtain ⟨e, he⟩ := hp
  constructor
  · cases hf : fenceGroup text with
    | some g =>
      cases hg : parse (trimWs g) with
      | ok v => exact absurd ⟨g, v, hf, hg⟩ h2
      | error m => exact ⟨processMsg m, by simp [parseAIResponse, he, hf, hg]⟩
    | none =>
      cases hb : braceSlice text with
      | some s =>
        cases hs : parse s with
        | ok v => exact absurd ⟨s, v, hb, hs⟩ h3
        | error m => exact ⟨processMsg m, by simp [parseAIResponse, he, hf, hb, hs]⟩
      | none =>
        exact ⟨processMsg (extractMsg (take200 text)), by simp [parseAIResponse, he, hf, hb]⟩
  · intro hf hb
    refine ⟨by simp [parseAIResponse, he, hf, hb], ?_⟩
    have hlen : (take200 text).length = (text.data.take 200).length := rfl
    rw [hlen, List.length_take]
    omega

/-- Witness for C4 at a concrete unrecoverable input with no fence and no
braces. -/
theorem claim_C4_witness :
    parseAIResponse jsonParse "hello" =
      Except.error (processMsg (extractMsg (take200 "hello"))) ∧
    (take200 "hello").length ≤ 500 := by
  refine (claim_C4 jsonParse "hello" ?_ ?_ ?_).2 (by decide) (by decide)
  · rintro ⟨v, hv⟩
    rw [show jsonParse "hello" = Except.error "bad json" from rfl] at hv
    exact Except.noConfusion hv
  · rintro ⟨g, v, hg, -⟩
    rw [show fenceGroup "hello" = none from by decide] at hg
    exact Option.noConfusion hg
  · rintro ⟨s, v, hs, -⟩
    rw [show braceSlice "hello" = none from by decide] at hs
    exact Option.noConfusion hs

end Extraction

namespace Store

/-- Association-list lookup, mirroring JavaScript property access. -/
def alGet {β : Type} : List (String × β) → String → Option β
  | [], _ => none
  | (k', v) :: rest, k => if k' = k then some v else alGet rest k

/-- Association-list write, mirroring JavaScript property assignment /
object-spread override: an existing key keeps its position and receives the
new value, a new key is appended. -/
def alSet {β : Type} : List (String × β) → String → β → List (String × β)
  | [], k, v => [(k, v)]
  | (k', v') :: rest, k, v =>
    if k' = k then (k', v) :: rest else (k', v') :: alSet rest k v

/-- Field record of a job file: the JSON object persisted by `JobManager`,
with opaque (string) field values. -/
abbrev Record := List (String × String)

/-- Keys named by a partial update. -/
def keys (r : Record) : List String := r.map Prod.fst

/-- JavaScript object-spread merge `\x7b...base, ...upd\x7d`. -/
def mergeFields (base upd : Record) : Record :=
  upd.foldl (fun r kv => alSet r kv.1 kv.2) base

/-- The jobs directory: one record per job id (`./jobs/<id>.json`). -/
abbrev JobsDir := List (String × Record)

/-- Embeds `JobManager.getJob`: read the record, `none` when absent. -/
def getJob (store : JobsDir) (jobId : String) : Option Record := alGet store jobId

/-- Embeds `fs.writeJson` on the job path: create or overwrite the record. -/
def writeJob (store : JobsDir) (jobId : String) (job : Record) : JobsDir :=
  alSet store jobId job

/-- Embeds `JobManager.createJob`: builds
`\x7bid, ...jobData, createdAt, updatedAt\x7d` and writes it unconditionally —
there is no existence check of any kind. -/
def createJob (store : JobsDir) (jobId : String) (jobData : Record) (now : String) :
    JobsDir × Record :=
  let job := mergeFields (mergeFields [("id", jobId)] jobData)
    [("createdAt", now), ("updatedAt", now)]
  (writeJob store jobId job, job)

/-- The merged record written by `JobManager.updateJob`:
`\x7b...job, ...updates, updatedAt: now\x7d`. -/
def updJobRecord (job updates : Record) (now : String) : Record :=
  mergeFields (mergeFields job updates) [("updatedAt", now)]

/-- Embeds `JobManager.updateJob`: read, merge, write; throws when the job
does not exist. -/
def updateJob (store : JobsDir) (jobId : String) (updates : Record) (now : String) :
    Except String (JobsDir × Record) :=
  match getJob store jobId with
  | none => .error ("Job " ++ jobId ++ " not found")
  | some job =>
    let updatedJob := updJobRecord job updates now
    .ok (writeJob store jobId updatedJob, updatedJob)

theorem alGet_alSet_self {β : Type} (l : List (String × β)) (k : String) (v : β) :
    alGet (alSet l k v) k = some v := by
  induction l with
  | nil => simp [alGet, alSet]
  | cons p rest ih =>
    by_cases h : p.1 = k
    · simp [alSet, alGet, h]
    · simp [alSet, alGet, h, ih]

theorem alGet_alSet_ne {β : Type} (l : List (String × β)) (k k' : String) (v : β)
    (h : k' ≠ k) : alGet (alSet l k v) k' = alGet l k' := by
  have hne : ¬(k = k') := fun hh => h hh.symm
  induction l with
  | nil => simp [alGet, alSet, hne]
  | cons p rest ih =>
    by_cases hp : p.1 = k
    · have hp' : ¬(p.1 = k') := by rw [hp]; exact hne
      simp [alSet, alGet, hp, hp', hne]
    · by_cases hp' : p.1 = k'
      · simp [alSet, alGet, hp, hp', h]
      · simp [alSet, alGet, hp, hp', ih]

theorem getField_mergeFields_not_named (base upd : Record) (k : String)
    (h : k ∉ keys upd) : alGet (mergeFields base upd) k = alGet base k := by
  induction upd generalizing base with
  | nil => simp [mergeFields]
  | cons p rest ih =>
    simp only [keys, List.map_cons, List.mem_cons] at h
    push_neg at h
    have h2 : k ∉ keys rest := by simpa [keys] using h.2
    have step : mergeFields base (p :: rest) = mergeFields (alSet base p.1 p.2) rest := by
      simp [mergeFields]
    rw [step, ih (alSet base p.1 p.2) h2, alGet_alSet_ne base p.1 k p.2 h.1]

end Store

namespace Store

/-- C6 counterexample: with job id `j1` already present in the store,
`createJob` does not fail (its result type has no failure case: the only
`throw` in the source is a re-throw of filesystem errors) and the existing
record is not left unchanged — it is replaced wholesale by the freshly built
record.  This refutes the claim that creating an existing id fails with
`DuplicateJobError` leaving the old record intact. -/
theorem claim_C6_counterexample :
    getJob [("j1", [("status", "planning")])] "j1" = some [("status", "planning")] ∧
    (createJob [("j1", [("status", "planning")])] "j1" [("type", "generate")] "t1").2 =
      [("id", "j1"), ("type", "generate"), ("createdAt", "t1"), ("updatedAt", "t1")] ∧
    getJob (createJob [("j1", [("status", "planning")])] "j1"
        [("type", "generate")] "t1").1 "j1" =
      some [("id", "j1"), ("type", "generate"), ("createdAt", "t1"), ("updatedAt", "t1")] ∧
    ([("id", "j1"), ("type", "generate"), ("createdAt", "t1"), ("updatedAt", "t1")] : Record) ≠
      [("status", "planning")] := by
  decide

/-- C6 as amended: `createJob` performs no duplicate check — for every store,
id, initial fields and timestamp it succeeds and writes the freshly built
record, silently replacing any record already stored under that id. -/
theorem claim_C6 (store : JobsDir) (jobId : String) (jobData : Record) (now : String) :
    getJob (createJob store jobId jobData now).1 jobId =
      some (createJob store jobId jobData now).2 := by
  simp [createJob, getJob, writeJob, alGet_alSet_self]

/-- C10: for every existing job record and every partial update, `updateJob`
stores the merged record in which each field not named by the update keeps its
previous value, while `updatedAt` is always rewritten to the update's
timestamp. -/
theorem claim_C10 (store : JobsDir) (jobId : String) (updates : Record) (now : String)
    (job : Record) (h : getJob store jobId = some job) :
    updateJob store jobId updates now =
      .ok (writeJob store jobId (updJobRecord job updates now), updJobRecord job updates now) ∧
    (∀ k, k ∉ keys updates → k ≠ "updatedAt" →
      alGet (updJobRecord job updates now) k = alGet job k) ∧
    alGet (updJobRecord job updates now) "updatedAt" = some now ∧
    getJob (writeJob store jobId (updJobRecord job updates now)) jobId =
      some (updJobRecord job updates now) := by
  have hsingle : updJobRecord job updates now =
      alSet (mergeFields job updates) "updatedAt" now := by
    simp [updJobRecord, mergeFields]
  refine ⟨by simp [updateJob, h], ?_, ?_, ?_⟩
  · intro k hk hk2
    rw [hsingle, alGet_alSet_ne _ _ _ _ hk2, getField_mergeFields_not_named _ _ _ hk]
  · rw [hsingle, alGet_alSet_self]
  · simp [getJob, writeJob, alGet_alSet_self]

/-- Witness for C10 at a concrete store, job and update. -/
theorem claim_C10_witness :
    alGet (updJobRecord [("status", "planning"), ("progress", "10")]
      [("status", "analyzing")] "t2") "progress" = some "10" ∧
    alGet (updJobRecord [("status", "planning"), ("progress", "10")]
      [("status", "analyzing")] "t2") "updatedAt" = some "t2" := by
  have h := claim_C10 [("j1", [("status", "planning"), ("progress", "10")])] "j1"
    [("status", "analyzing")] "t2" [("status", "planning"), ("progress", "10")] (by decide)
  exact ⟨h.2.1 "progress" (by decide) (by decide), h.2.2.1⟩

end Store

namespace Store

/-- One in-flight `updateJob` call: target job id, partial fields, and the
timestamp its merge will stamp. -/
structure ThreadCtx where
  jobId : String
  updates : Record
  now : String
  deriving DecidableEq

/-- Joint state of the store and the two in-flight calls.  Each call consists
of two atomic suspension-separated steps taken from the source of
`updateJob`: the read (`getJob`) and the write (`fs.writeJson` of the merged
record); `pc` counts the steps a call has taken and `snap` is the record its
read returned. -/
structure RunState where
  store : JobsDir
  pcA : Nat
  snapA : Record
  pcB : Nat
  snapB : Record
  deriving DecidableEq

/-- Advance call A by one step. -/
def stepA (A : ThreadCtx) (st : RunState) : RunState :=
  if st.pcA = 0 then
    { st with pcA := 1, snapA := (getJob st.store A.jobId).getD [] }
  else if st.pcA = 1 then
    { st with pcA := 2, store := writeJob st.store A.jobId (updJobRecord st.snapA A.updates A.now) }
  else st

/-- Advance call B by one step. -/
def stepB (B : ThreadCtx) (st : RunState) : RunState :=
  if st.pcB = 0 then
    { st with pcB := 1, snapB := (getJob st.store B.jobId).getD [] }
  else if st.pcB = 1 then
    { st with pcB := 2, store := writeJob st.store B.jobId (updJobRecord st.snapB B.updates B.now) }
  else st

/-- Execute an interleaving: `true` schedules the next step of call A,
`false` the next step of call B. -/
def runSched (A B : ThreadCtx) : List Bool → RunState → RunState
  | [], st => st
  | true :: rest, st => runSched A B rest (stepA A st)
  | false :: rest, st => runSched A B rest (stepB B st)

/-- Final store after running both calls under the given interleaving. -/
def runUpdates (A B : ThreadCtx) (sched : List Bool) (s0 : JobsDir) : JobsDir :=
  (runSched A B sched { store := s0, pcA := 0, snapA := [], pcB := 0, snapB := [] }).store

/-- A schedule that runs each of the two two-step calls to completion. -/
def validSched (sched : List Bool) : Prop :=
  sched.count true = 2 ∧ sched.count false = 2

theorem count_bool_length (l : List Bool) : l.count true + l.count false = l.length := by
  induction l with
  | nil => simp
  | cons b t ih => cases b <;> simp [List.count_cons] <;> omega

theorem validSched_cases (sched : List Bool) (h : validSched sched) :
    sched = [true, true, false, false] ∨ sched = [true, false, true, false] ∨
    sched = [true, false, false, true] ∨ sched = [false, true, true, false] ∨
    sched = [false, true, false, true] ∨ sched = [false, false, true, true] := by
  obtain ⟨h1, h2⟩ := h
  have hlen : sched.length = 4 := by rw [← count_bool_length]; omega
  rcases sched with _ | ⟨a, _ | ⟨b, _ | ⟨c, _ | ⟨d, _ | ⟨e, t⟩⟩⟩⟩⟩ <;> simp_all [List.count_cons]
  cases a <;> cases b <;> cases c <;> cases d <;> simp_all [List.count_cons]

end Store

namespace Store

/-- C9 counterexample: two concurrent `updateJob` calls against the same job
id, interleaved read-read-write-write, leave a stored record that matches
neither serial execution order: the first call's field is lost entirely.
This refutes the claim that an update is atomic with respect to a single
job (no lost update / no interleaved partial write). -/
theorem claim_C9_counterexample :
    validSched [true, false, true, false] ∧
    (⟨"j", [("x", "1")], "ta"⟩ : ThreadCtx).jobId =
      (⟨"j", [("y", "2")], "tb"⟩ : ThreadCtx).jobId ∧
    ¬ (getJob (runUpdates ⟨"j", [("x", "1")], "ta"⟩ ⟨"j", [("y", "2")], "tb"⟩
          [true, false, true, false] [("j", [("f", "0")])]) "j" =
        getJob (runUpdates ⟨"j", [("x", "1")], "ta"⟩ ⟨"j", [("y", "2")], "tb"⟩
          [true, true, false, false] [("j", [("f", "0")])]) "j" ∨
       getJob (runUpdates ⟨"j", [("x", "1")], "ta"⟩ ⟨"j", [("y", "2")], "tb"⟩
          [true, false, true, false] [("j", [("f", "0")])]) "j" =
        getJob (runUpdates ⟨"j", [("x", "1")], "ta"⟩ ⟨"j", [("y", "2")], "tb"⟩
          [false, false, true, true] [("j", [("f", "0")])]) "j") := by
  refine ⟨⟨rfl, rfl⟩, rfl, by decide⟩

/-- C9 as amended: `updateJob` is an unguarded read-then-write, so under any
complete interleaving of two calls against the same existing job id the final
record is one of the two serial outcomes or one of the two lost-update
outcomes in which only a single call's fields survive; calls against two
different existing ids never affect each other — each id ends with exactly
its own call's merge under every interleaving. -/
theorem claim_C9 (A B : ThreadCtx) (s0 : JobsDir) (jA jB : Record) (sched : List Bool)
    (hv : validSched sched) :
    (A.jobId = B.jobId → getJob s0 A.jobId = some jA →
      (getJob (runUpdates A B sched s0) A.jobId =
          some (updJobRecord (updJobRecord jA A.updates A.now) B.updates B.now) ∨
       getJob (runUpdates A B sched s0) A.jobId =
          some (updJobRecord (updJobRecord jA B.updates B.now) A.updates A.now) ∨
       getJob (runUpdates A B sched s0) A.jobId = some (updJobRecord jA A.updates A.now) ∨
       getJob (runUpdates A B sched s0) A.jobId = some (updJobRecord jA B.updates B.now))) ∧
    (A.jobId ≠ B.jobId → getJob s0 A.jobId = some jA → getJob s0 B.jobId = some jB →
      getJob (runUpdates A B sched s0) A.jobId = some (updJobRecord jA A.updates A.now) ∧
      getJob (runUpdates A B sched s0) B.jobId = some (updJobRecord jB B.updates B.now)) := by
  have diffCase : ∀ sc : List Bool, A.jobId ≠ B.jobId →
      getJob s0 A.jobId = some jA → getJob s0 B.jobId = some jB →
      (sc = [true, true, false, false] ∨ sc = [true, false, true, false] ∨
       sc = [true, false, false, true] ∨ sc = [false, true, true, false] ∨
       sc = [false, true, false, true] ∨ sc = [false, false, true, true]) →
      getJob (runUpdates A B sc s0) A.jobId = some (updJobRecord jA A.updates A.now) ∧
      getJob (runUpdates A B sc s0) B.jobId = some (updJobRecord jB B.updates B.now) := by
    intro sc h hA hB hsc
    have h' : B.jobId ≠ A.jobId := Ne.symm h
    rcases hsc with rfl | rfl | rfl | rfl | rfl | rfl <;>
      (simp only [runUpdates, runSched, stepA, stepB]
       simp only [getJob, writeJob] at hA hB ⊢
       simp [hA, hB, alGet_alSet_self, alGet_alSet_ne, h, h'])
  have hcases := validSched_cases sched hv
  refine ⟨?_, fun h hA hB => diffCase sched h hA hB hcases⟩
  intro h hA
  rcases hcases with rfl | rfl | rfl | rfl | rfl | rfl
  · refine Or.inl ?_
    simp only [runUpdates, runSched, stepA, stepB]
    simp only [getJob, writeJob] at hA ⊢
    simp [← h, hA, alGet_alSet_self]
  · refine Or.inr (Or.inr (Or.inr ?_))
    simp only [runUpdates, runSched, stepA, stepB]
    simp only [getJob, writeJob] at hA ⊢
    simp [← h, hA, alGet_alSet_self]
  · refine Or.inr (Or.inr (Or.inl ?_))
    simp only [runUpdates, runSched, stepA, stepB]
    simp only [getJob, writeJob] at hA ⊢
    simp [← h, hA, alGet_alSet_self]
  · refine Or.inr (Or.inr (Or.inr ?_))
    simp only [runUpdates, runSched, stepA, stepB]
    simp only [getJob, writeJob] at hA ⊢
    simp [← h, hA, alGet_alSet_self]
  · refine Or.inr (Or.inr (Or.inl ?_))
    simp only [runUpdates, runSched, stepA, stepB]
    simp only [getJob, writeJob] at hA ⊢
    simp [← h, hA, alGet_alSet_self]
  · refine Or.inr (Or.inl ?_)
    simp only [runUpdates, runSched, stepA, stepB]
    simp only [getJob, writeJob] at hA ⊢
    simp [← h, hA, alGet_alSet_self]

/-- Witness for C9 at a concrete serial schedule over one shared job id. -/
theorem claim_C9_witness :
    getJob (runUpdates ⟨"j", [("x", "1")], "ta"⟩ ⟨"j", [("y", "2")], "tb"⟩
        [true, true, false, false] [("j", [("f", "0")])]) "j" =
      some (updJobRecord (updJobRecord [("f", "0")] [("x", "1")] "ta") [("y", "2")] "tb") ∨
    getJob (runUpdates ⟨"j", [("x", "1")], "ta"⟩ ⟨"j", [("y", "2")], "tb"⟩
        [true, true, false, false] [("j", [("f", "0")])]) "j" =
      some (updJobRecord (updJobRecord [("f", "0")] [("y", "2")] "tb") [("x", "1")] "ta") ∨
    getJob (runUpdates ⟨"j", [("x", "1")], "ta"⟩ ⟨"j", [("y", "2")], "tb"⟩
        [true, true, false, false] [("j", [("f", "0")])]) "j" =
      some (updJobRecord [("f", "0")] [("x", "1")] "ta") ∨
    getJob (runUpdates ⟨"j", [("x", "1")], "ta"⟩ ⟨"j", [("y", "2")], "tb"⟩
        [true, true, false, false] [("j", [("f", "0")])]) "j" =
      some (updJobRecord [("f", "0")] [("y", "2")] "tb") :=
  (claim_C9 ⟨"j", [("x", "1")], "ta"⟩ ⟨"j", [("y", "2")], "tb"⟩
    [("j", [("f", "0")])] [("f", "0")] [("f", "0")]
    [true, true, false, false] ⟨rfl, rfl⟩).1 rfl (by decide)

end Store

namespace Pipeline

/-- Typed view of a job record, covering the fields the pipeline runners
read and write (timestamps that no claim depends on are modelled as unit
markers; `type` is called `jobType` because `type` reads poorly in Lean). -/
structure Job where
  id : String := ""
  jobType : String := ""
  status : String := ""
  progress : Option Nat := none
  result : Option String := none
  error : Option String := none
  planningData : Option String := none
  completedAt : Option Unit := none
  failedAt : Option Unit := none
  cancelledAt : Option Unit := none
  deriving DecidableEq

/-- One `jobManager.updateJob` argument: `none` means the field is absent
from the partial update. -/
structure JobUpdate where
  status : Option String := none
  progress : Option Nat := none
  result : Option String := none
  error : Option String := none
  planningData : Option String := none
  completedAt : Option Unit := none
  failedAt : Option Unit := none
  cancelledAt : Option Unit := none
  deriving DecidableEq

/-- Spread override: a field named by the update wins, otherwise the old
value is kept. -/
def keepOld {α : Type} (new old : Option α) : Option α :=
  match new with
  | some x => some x
  | none => old

/-- The merge `\x7b...job, ...updates\x7d` performed by `updateJob`,
restricted to the typed fields. -/
def applyUpdate (j : Job) (u : JobUpdate) : Job :=
  { id := j.id, jobType := j.jobType,
    status := u.status.getD j.status,
    progress := keepOld u.progress j.progress,
    result := keepOld u.result j.result,
    error := keepOld u.error j.error,
    planningData := keepOld u.planningData j.planningData,
    completedAt := keepOld u.completedAt j.completedAt,
    failedAt := keepOld u.failedAt j.failedAt,
    cancelledAt := keepOld u.cancelledAt j.cancelledAt }

/-- The update written by every catch block:
`\x7bstatus: 'failed', error: error.message, failedAt\x7d`. -/
def failedUpdate (e : String) : JobUpdate :=
  { status := some "failed", error := some e, failedAt := some () }

/-- The update written by the DELETE cancellation route:
`\x7bstatus: 'cancelled', cancelledAt\x7d`. -/
def cancelUpdate : JobUpdate :=
  { status := some "cancelled", cancelledAt := some () }

/-- The cancellation route's guard: only jobs that are not `completed` and
not `failed` may be cancelled. -/
def cancelAllowed (j : Job) : Bool :=
  !(j.status = "completed" || j.status = "failed")

/-- Embeds `generateAppAsync`: the sequence of `updateJob` calls one run
performs, as a function of the outcomes of its three failable phases —
planning (`analyzeDescription` plus the preference rewrite), generation
(`generateMultiPlatformApp`), and packaging (`packageGeneratedCode`).
Any phase throwing lands in the catch block, which writes the failed
update and ends the run; there is no job-status check anywhere. -/
def generateUpdates (oPlan oGen oPack : Except String String) : List JobUpdate :=
  { status := some "planning" } ::
  match oPlan with
  | .error e => [failedUpdate e]
  | .ok pd =>
    { status := some "generating", planningData := some pd, progress := some 25 } ::
    match oGen with
    | .error e => [failedUpdate e]
    | .ok _ =>
      { status := some "packaging", progress := some 80 } ::
      match oPack with
      | .error e => [failedUpdate e]
      | .ok r =>
        [{ status := some "completed", progress := some 100, result := some r,
           completedAt := some () }]

/-- Embeds `analyzeCodeAsync`: extraction and analysis can throw;
`generateRecommendations` is a pure constant and cannot. -/
def analyzeUpdates (oExtract : Except String Nat) (oAnalyze : Except String String) :
    List JobUpdate :=
  { status := some "extracting", progress := some 10 } ::
  match oExtract with
  | .error e => [failedUpdate e]
  | .ok n =>
    { status := some "analyzing", progress := some 30 } ::
    match oAnalyze with
    | .error e => [failedUpdate e]
    | .ok a =>
      { status := some "generating_recommendations", progress := some 70 } ::
      [{ status := some "completed", progress := some 100,
         result := some ("analysis:" ++ a ++ ";files:" ++ toString n),
         completedAt := some () }]

/-- Final job record after a run applies its updates in order. -/
def runPipeline (j : Job) (us : List JobUpdate) : Job :=
  us.foldl applyUpdate j

/-- All intermediate persisted job states of a run, starting with the
created job. -/
def pipelineTrace (j : Job) (us : List JobUpdate) : List Job :=
  List.scanl applyUpdate j us

/-- Insert an externally requested update between stage updates. -/
def insertAt (i : Nat) (u : JobUpdate) (us : List JobUpdate) : List JobUpdate :=
  us.take i ++ u :: us.drop i

/-- Outward progress value: `job.progress || 0`. -/
def progVal (j : Job) : Nat := j.progress.getD 0

/-- Terminal statuses per `calculateEstimatedTime` and the cleanup helper. -/
def terminalStatus (s : String) : Bool :=
  s = "completed" || s = "failed" || s = "cancelled"

/-- Jobs created by the two POST routes before their runner starts:
`generate` jobs start at status `planning`, `analyze` jobs at `extracting`;
neither route sets `progress`, `result` or `error`. -/
def createdGenerateJob : Job :=
  { id := "j1", jobType := "generate", status := "planning" }

/-- The analyze route's freshly created job. -/
def createdAnalyzeJob : Job :=
  { id := "j2", jobType := "analyze", status := "extracting" }

/-- Scalar fold of the status field over a run. -/
def statusFold (s : String) (us : List JobUpdate) : String :=
  us.foldl (fun acc u => u.status.getD acc) s

theorem runPipeline_status (j : Job) (us : List JobUpdate) :
    (runPipeline j us).status = statusFold j.status us := by
  induction us generalizing j with
  | nil => rfl
  | cons u t ih =>
    show (runPipeline (applyUpdate j u) t).status = statusFold j.status (u :: t)
    rw [ih (applyUpdate j u)]
    rfl

theorem statusFold_append (s : String) (l1 l2 : List JobUpdate) :
    statusFold s (l1 ++ l2) = statusFold (statusFold s l1) l2 := by
  simp [statusFold, List.foldl_append]

theorem statusFold_all_set (us : List JobUpdate)
    (h : ∀ u ∈ us, u.status.isSome) (hne : us ≠ []) (s s' : String) :
    statusFold s us = statusFold s' us := by
  induction us generalizing s s' with
  | nil => exact absurd rfl hne
  | cons u t ih =>
    obtain ⟨v, hv⟩ := Option.isSome_iff_exists.mp (h u (List.mem_cons_self u t))
    cases t with
    | nil => simp [statusFold, hv]
    | cons w t' =>
      show statusFold (u.status.getD s) (w :: t') = statusFold (u.status.getD s') (w :: t')
      exact ih (fun x hx => h x (List.mem_cons_of_mem u hx)) (by simp) _ _

theorem insert_cancel_statusFold (us : List JobUpdate) (i : Nat) (hi : i < us.length)
    (hall : ∀ u ∈ us, u.status.isSome) (s : String) :
    statusFold s (insertAt i cancelUpdate us) = statusFold s us := by
  have hd : us.drop i ≠ [] := by
    intro hnil
    have := List.drop_eq_nil_iff.mp hnil
    omega
  have hall' : ∀ u ∈ us.drop i, u.status.isSome :=
    fun u hu => hall u (List.drop_subset i us hu)
  have split := (List.take_append_drop i us).symm
  calc statusFold s (insertAt i cancelUpdate us)
      = statusFold (statusFold s (us.take i)) (cancelUpdate :: us.drop i) := by
        rw [insertAt, statusFold_append]
    _ = statusFold "cancelled" (us.drop i) := rfl
    _ = statusFold (statusFold s (us.take i)) (us.drop i) :=
        statusFold_all_set (us.drop i) hall' hd _ _
    _ = statusFold s us := by rw [← statusFold_append, List.take_append_drop]

theorem generateUpdates_status_set (o1 o2 o3 : Except String String) :
    ∀ u ∈ generateUpdates o1 o2 o3, u.status.isSome := by
  cases o1 <;> cases o2 <;> cases o3 <;> simp [generateUpdates, failedUpdate]

theorem analyzeUpdates_status_set (o1 : Except String Nat) (o2 : Except String String) :
    ∀ u ∈ analyzeUpdates o1 o2, u.status.isSome := by
  cases o1 <;> cases o2 <;> simp [analyzeUpdates, failedUpdate]

end Pipeline

namespace Pipeline

/-- C2 counterexample: in a `generate` run whose three phases all succeed,
an external cancellation persisted right after the first stage update is
visible in the trace (the persisted status is `cancelled` at that point),
yet the run — which never reads the job status — continues and its final
update leaves the job `completed`.  A later stage update therefore does
overwrite a cancelled status, refuting the claim that the runner checks the
persisted status before each stage and stops. -/
theorem claim_C2_counterexample :
    ((pipelineTrace createdGenerateJob (insertAt 1 cancelUpdate
        (generateUpdates (.ok "pd") (.ok "gen") (.ok "res")))).get? 2).map Job.status =
      some "cancelled" ∧
    (runPipeline createdGenerateJob (insertAt 1 cancelUpdate
        (generateUpdates (.ok "pd") (.ok "gen") (.ok "res")))).status = "completed" ∧
    ("completed" : String) ≠ "cancelled" := by
  decide

/-- C2 as amended: the runners perform no job-status check at any stage
boundary, so a cancellation persisted at any point strictly before a run's
last update has no effect on the job's final status — every remaining stage
update is applied and the run ends exactly as it would have without the
cancellation (`completed` or `failed`); cancellation never interrupts or
stops anything in an in-flight run. -/
theorem claim_C2 (oPlan oGen oPack : Except String String) (oExtract : Except String Nat)
    (oAnalyze : Except String String) (j : Job) (i : Nat) :
    (i < (generateUpdates oPlan oGen oPack).length →
      (runPipeline j (insertAt i cancelUpdate (generateUpdates oPlan oGen oPack))).status =
        (runPipeline j (generateUpdates oPlan oGen oPack)).status) ∧
    (i < (analyzeUpdates oExtract oAnalyze).length →
      (runPipeline j (insertAt i cancelUpdate (analyzeUpdates oExtract oAnalyze))).status =
        (runPipeline j (analyzeUpdates oExtract oAnalyze)).status) := by
  constructor
  · intro hi
    rw [runPipeline_status, runPipeline_status,
      insert_cancel_statusFold _ i hi (generateUpdates_status_set oPlan oGen oPack)]
  · intro hi
    rw [runPipeline_status, runPipeline_status,
      insert_cancel_statusFold _ i hi (analyzeUpdates_status_set oExtract oAnalyze)]

/-- Witness for C2: a successful generate run with a cancellation inserted
after the second stage update still ends `completed`. -/
theorem claim_C2_witness :
    (runPipeline createdGenerateJob (insertAt 2 cancelUpdate
        (generateUpdates (.ok "pd") (.ok "gen") (.ok "res")))).status =
      (runPipeline createdGenerateJob (generateUpdates (.ok "pd") (.ok "gen") (.ok "res"))).status ∧
    (runPipeline createdGenerateJob (generateUpdates (.ok "pd") (.ok "gen") (.ok "res"))).status =
      "completed" :=
  ⟨(claim_C2 (.ok "pd") (.ok "gen") (.ok "res") (.ok 1) (.ok "a")
      createdGenerateJob 2).1 (by decide), by decide⟩

end Pipeline

namespace Pipeline

/-- Exactly one of the result and error fields is populated. -/
def exactlyOneSet (j : Job) : Prop :=
  (j.result.isSome ∧ j.error = none) ∨ (j.result = none ∧ j.error.isSome)

/-- C5 counterexample: the cancellation route is allowed to cancel a freshly
created job and does so by writing only `status` and `cancelledAt`; the
resulting job is in a terminal state with NEITHER `result` nor `error` set,
refuting the claim that every terminal state has exactly one of the two. -/
theorem claim_C5_counterexample :
    cancelAllowed createdGenerateJob = true ∧
    terminalStatus (applyUpdate createdGenerateJob cancelUpdate).status = true ∧
    (applyUpdate createdGenerateJob cancelUpdate).result = none ∧
    (applyUpdate createdGenerateJob cancelUpdate).error = none ∧
    ¬ exactlyOneSet (applyUpdate createdGenerateJob cancelUpdate) := by
  refine ⟨by decide, by decide, by decide, by decide, ?_⟩
  rintro (⟨h1, -⟩ | ⟨-, h2⟩)
  · simp [applyUpdate, cancelUpdate, keepOld, createdGenerateJob] at h1
  · simp [applyUpdate, cancelUpdate, keepOld, createdGenerateJob] at h2

/-- First error thrown during a generate run, in phase order: planning
(`analyzeDescription` plus the preference rewrite), then generation, then
packaging; `none` when every phase succeeds. -/
def generateThrown (oPlan oGen oPack : Except String String) : Option String :=
  match oPlan with
  | .error e => some e
  | .ok _ =>
    match oGen with
    | .error e => some e
    | .ok _ =>
      match oPack with
      | .error e => some e
      | .ok _ => none

/-- First error thrown during an analyze run, in phase order: extraction then
analysis; `none` when both succeed. -/
def analyzeThrown (oExtract : Except String Nat) (oAnalyze : Except String String) :
    Option String :=
  match oExtract with
  | .error e => some e
  | .ok _ =>
    match oAnalyze with
    | .error e => some e
    | .ok _ => none

/-- C5 as amended: once a job of either pipeline (started on a job with
neither `result` nor `error` set, as both routes create them) reaches the
terminal state `completed` or `failed`, exactly one of its `result` and
`error` fields is set — a failed job's `result` is never populated, only its
`error` field, which records the failing phase's thrown message verbatim and
therefore holds a non-empty message whenever that thrown message is non-empty
(as every error message constructed in this repository is); but a job put
into the terminal state `cancelled` by the external cancellation request has
neither `result` nor `error` set. -/
theorem claim_C5 (oPlan oGen oPack : Except String String) (oExtract : Except String Nat)
    (oAnalyze : Except String String) (j : Job)
    (hr : j.result = none) (he : j.error = none) :
    (∀ e, generateThrown oPlan oGen oPack = some e →
      (runPipeline j (generateUpdates oPlan oGen oPack)).status = "failed" ∧
      (runPipeline j (generateUpdates oPlan oGen oPack)).error = some e ∧
      (runPipeline j (generateUpdates oPlan oGen oPack)).result = none ∧
      exactlyOneSet (runPipeline j (generateUpdates oPlan oGen oPack)) ∧
      (e ≠ "" → ∃ m, (runPipeline j (generateUpdates oPlan oGen oPack)).error = some m ∧
        m ≠ "")) ∧
    (generateThrown oPlan oGen oPack = none →
      (runPipeline j (generateUpdates oPlan oGen oPack)).status = "completed" ∧
      (runPipeline j (generateUpdates oPlan oGen oPack)).error = none ∧
      (∃ r, oPack = .ok r ∧
        (runPipeline j (generateUpdates oPlan oGen oPack)).result = some r) ∧
      exactlyOneSet (runPipeline j (generateUpdates oPlan oGen oPack))) ∧
    (∀ e, analyzeThrown oExtract oAnalyze = some e →
      (runPipeline j (analyzeUpdates oExtract oAnalyze)).status = "failed" ∧
      (runPipeline j (analyzeUpdates oExtract oAnalyze)).error = some e ∧
      (runPipeline j (analyzeUpdates oExtract oAnalyze)).result = none ∧
      exactlyOneSet (runPipeline j (analyzeUpdates oExtract oAnalyze)) ∧
      (e ≠ "" → ∃ m, (runPipeline j (analyzeUpdates oExtract oAnalyze)).error = some m ∧
        m ≠ "")) ∧
    (analyzeThrown oExtract oAnalyze = none →
      (runPipeline j (analyzeUpdates oExtract oAnalyze)).status = "completed" ∧
      (runPipeline j (analyzeUpdates oExtract oAnalyze)).error = none ∧
      (runPipeline j (analyzeUpdates oExtract oAnalyze)).result.isSome ∧
      exactlyOneSet (runPipeline j (analyzeUpdates oExtract oAnalyze))) ∧
    ((applyUpdate j cancelUpdate).status = "cancelled" ∧
      (applyUpdate j cancelUpdate).result = none ∧
      (applyUpdate j cancelUpdate).error = none) := by
  cases oPlan <;> cases oGen <;> cases oPack <;> cases oExtract <;> cases oAnalyze <;>
    simp [runPipeline, applyUpdate, keepOld, generateUpdates, analyzeUpdates,
      failedUpdate, cancelUpdate, generateThrown, analyzeThrown, exactlyOneSet, hr, he]

/-- Witness for C5: a generate run failing in its planning phase records that
phase's message verbatim with no result, and a fully successful generate run
records the packaged result with no error. -/
theorem claim_C5_witness :
    (runPipeline createdGenerateJob
      (generateUpdates (.error "boom") (.ok "gen") (.ok "res"))).status = "failed" ∧
    (runPipeline createdGenerateJob
      (generateUpdates (.error "boom") (.ok "gen") (.ok "res"))).error = some "boom" ∧
    (runPipeline createdGenerateJob
      (generateUpdates (.error "boom") (.ok "gen") (.ok "res"))).result = none ∧
    (runPipeline createdGenerateJob
      (generateUpdates (.ok "pd") (.ok "gen") (.ok "res"))).result = some "res" ∧
    (runPipeline createdGenerateJob
      (generateUpdates (.ok "pd") (.ok "gen") (.ok "res"))).error = none := by
  have h1 := (claim_C5 (.error "boom") (.ok "gen") (.ok "res") (.ok 1) (.ok "a")
    createdGenerateJob (by decide) (by decide)).1 "boom" rfl
  have h2 := (claim_C5 (.ok "pd") (.ok "gen") (.ok "res") (.ok 1) (.ok "a")
    createdGenerateJob (by decide) (by decide)).2.1 rfl
  obtain ⟨r, hrr, hres⟩ := h2.2.2.1
  cases Except.ok.inj hrr
  exact ⟨h1.1, h1.2.1, h1.2.2.1, hres, h2.2.1⟩
/-- C7: over every run of either pipeline started on a job whose `progress`
is unset (as both POST routes create it), the successive persisted progress
values (`progress || 0`) are monotonically non-decreasing and never exceed
100; no update resets progress backward. -/
theorem claim_C7 (oPlan oGen oPack : Except String String) (oExtract : Except String Nat)
    (oAnalyze : Except String String) (j : Job) (h : j.progress = none) :
    (List.Chain' (· ≤ ·) ((pipelineTrace j (generateUpdates oPlan oGen oPack)).map progVal) ∧
      ∀ jj ∈ pipelineTrace j (generateUpdates oPlan oGen oPack), progVal jj ≤ 100) ∧
    (List.Chain' (· ≤ ·) ((pipelineTrace j (analyzeUpdates oExtract oAnalyze)).map progVal) ∧
      ∀ jj ∈ pipelineTrace j (analyzeUpdates oExtract oAnalyze), progVal jj ≤ 100) := by
  cases oPlan <;> cases oGen <;> cases oPack <;> cases oExtract <;> cases oAnalyze <;>
    simp [pipelineTrace, applyUpdate, keepOld, generateUpdates, analyzeUpdates,
      failedUpdate, progVal, h, List.chain'_cons]

/-- Witness for C7: the successful generate run from the created job. -/
theorem claim_C7_witness :
    List.Chain' (· ≤ ·) ((pipelineTrace createdGenerateJob
      (generateUpdates (.ok "pd") (.ok "gen") (.ok "res"))).map progVal) ∧
    ∀ jj ∈ pipelineTrace createdGenerateJob
      (generateUpdates (.ok "pd") (.ok "gen") (.ok "res")), progVal jj ≤ 100 :=
  (claim_C7 (.ok "pd") (.ok "gen") (.ok "res") (.ok 1) (.ok "a")
    createdGenerateJob (by decide)).1

end Pipeline

namespace Pipeline

/-- Embeds the `baseEstimates` table of `calculateEstimatedTime`: fixed
per-type design constants in seconds. -/
def baseEstimates (t : String) : Option Nat :=
  if t = "generate" then some 480
  else if t = "analyze" then some 300
  else if t = "modernize" then some 600
  else none

/-- Embeds `calculateEstimatedTime` (routes/status.js lines 793-809):
terminal jobs report zero; otherwise the per-type base (defaulting to 300)
scaled by remaining progress, rounded up (`Math.ceil`, here on naturals). -/
def calculateEstimatedTime (j : Job) : Nat :=
  if terminalStatus j.status then 0
  else ((baseEstimates j.jobType).getD 300 * (100 - progVal j) + 99) / 100

/-- The outward job-status response body of `GET /api/status/:jobId`. -/
structure StatusView where
  status : String
  progress : Nat
  result : Option String
  error : Option String
  estimatedTimeRemaining : Nat
  deriving DecidableEq

/-- Embeds the status route's response construction. -/
def statusResponse (j : Job) : StatusView :=
  { status := j.status, progress := progVal j, result := j.result, error := j.error,
    estimatedTimeRemaining := calculateEstimatedTime j }

/-- Stored job used as the C8 failed-terminal example. -/
def failedGenJob : Job := { id := "j1", jobType := "generate", status := "failed", progress := some 30, error := some "boom" }

/-- Stored job used as the C8 rounding example. -/
def runningGenJob : Job := { id := "j2", jobType := "generate", status := "planning", progress := some 1 }

/-- Stored job used as the C8 non-terminal witness. -/
def runningAnalyzeJob : Job := { id := "j3", jobType := "analyze", status := "analyzing", progress := some 30 }

/-- C8 counterexample: two stored jobs on which the outward
`estimatedTimeRemaining` differs from `baseEstimateForType * (100 - progress) / 100`:
a failed generate job with progress 30 reports 0 rather than 336 (terminal
statuses short-circuit to zero), and a running generate job with progress 1
reports the rounded-up 476 rather than the formula's 475. -/
theorem claim_C8_counterexample :
    (statusResponse failedGenJob).estimatedTimeRemaining = 0 ∧
    (baseEstimates failedGenJob.jobType).getD 300 * (100 - progVal failedGenJob) / 100 = 336 ∧
    (0 : Nat) ≠ 336 ∧
    (statusResponse runningGenJob).estimatedTimeRemaining = 476 ∧
    (baseEstimates runningGenJob.jobType).getD 300 * (100 - progVal runningGenJob) / 100 = 475 ∧
    (476 : Nat) ≠ 475 := by
  decide

/-- C8 as amended: the outward read reports `estimatedTimeRemaining = 0` for
every job in a terminal status (`completed`, `failed`, `cancelled`); for every
other job it reports `ceil(baseEstimateForType * (100 - progress) / 100)`
with `progress || 0`, where the bases are the fixed design constants 480s for
`generate`, 300s for `analyze`, 600s for `modernize` (and 300s for an unknown
type). -/
theorem claim_C8 (j : Job) :
    (terminalStatus j.status = true →
      (statusResponse j).estimatedTimeRemaining = 0) ∧
    (terminalStatus j.status = false →
      (statusResponse j).estimatedTimeRemaining =
        ((baseEstimates j.jobType).getD 300 * (100 - progVal j) + 99) / 100) ∧
    baseEstimates "generate" = some 480 ∧
    baseEstimates "analyze" = some 300 ∧
    baseEstimates "modernize" = some 600 := by
  refine ⟨?_, ?_, by decide, by decide, by decide⟩ <;>
    intro h <;> simp [statusResponse, calculateEstimatedTime, h]

/-- Witness for C8 at a terminal and a non-terminal job. -/
theorem claim_C8_witness :
    (statusResponse failedGenJob).estimatedTimeRemaining = 0 ∧
    (statusResponse runningAnalyzeJob).estimatedTimeRemaining =
      ((baseEstimates runningAnalyzeJob.jobType).getD 300 *
        (100 - progVal runningAnalyzeJob) + 99) / 100 :=
  ⟨(claim_C8 failedGenJob).1 (by decide), (claim_C8 runningAnalyzeJob).2.1 (by decide)⟩

end Pipeline

namespace Coordinator

/-- Value returned by a platform agent's `generateCode`: written file paths
and the structure metadata. -/
structure GenOutput where
  files : List String
  struct : String
  deriving DecidableEq

/-- Per-platform outcome entry of the coordinator's `results` object. -/
structure PlatformResult where
  success : Bool
  files : List String
  struct : Option String
  error : Option String
  deriving DecidableEq

/-- The keys of the `this.agents` map: ios, android, web, backend. -/
def supportedPlatforms : List String := ["ios", "android", "web", "backend"]

/-- Entry written when an agent resolves:
`\x7bsuccess: true, files, structure\x7d`. -/
def mkSuccess (o : GenOutput) : PlatformResult :=
  { success := true, files := o.files, struct := some o.struct, error := none }

/-- Entry written for a platform with no agent:
`\x7bsuccess: false, error: Platform ... not supported\x7d`. -/
def unsupportedResult (p : String) : PlatformResult :=
  { success := false, files := [], struct := none,
    error := some ("Platform " ++ p ++ " not supported") }

/-- Embeds `CodeGenerator.generateMultiPlatformApp` over the behaviour `gen`
of the agents' `generateCode` calls: per requested platform, a supported
platform contributes its agent's result or — because the per-platform
promises reject and the coordinator awaits them with `Promise.all`, whose
rejection the surrounding try/catch rethrows — makes the whole call reject
with that agent's error, discarding every sibling entry; an unsupported
platform contributes a `success:false` entry without invoking anything.
(`Promise.all` rejects with the temporally first rejection; this embedding
takes the first in request order, and the theorems below depend only on
whether the call rejects.) -/
def generateMultiPlatformApp (gen : String → Except String GenOutput) :
    List String → Except String (List (String × PlatformResult))
  | [] => .ok []
  | p :: rest =>
    if p ∈ supportedPlatforms then
      match gen p with
      | .ok o =>
        match generateMultiPlatformApp gen rest with
        | .ok m => .ok ((p, mkSuccess o) :: m)
        | .error e => .error e
      | .error e => .error e
    else
      match generateMultiPlatformApp gen rest with
      | .ok m => .ok ((p, unsupportedResult p) :: m)
      | .error e => .error e

/-- Agent behaviour for the C1 counterexample: the ios agent's model call
throws a `GenerationError` while every other agent succeeds. -/
def genCE : String → Except String GenOutput :=
  fun p => if p = "ios" then .error "boom" else .ok { files := ["f.txt"], struct := "MVVM" }

/-- Agent behaviour that always succeeds. -/
def genOK : String → Except String GenOutput :=
  fun _ => .ok { files := ["a.txt"], struct := "MVVM" }

/-- C1 counterexample: requesting `ios` and `web` where the ios agent fails
and the web agent succeeds makes `generateMultiPlatformApp` reject with the
ios error instead of returning a result map — no map with one entry per
requested platform (or any map at all) is returned, and the sibling's
successful result is discarded.  This refutes the claim that a platform
failure is recorded as `PlatformResult\x7bsuccess:false\x7d` while the
coordinator waits for all platforms and returns one entry per platform. -/
theorem claim_C1_counterexample :
    "ios" ∈ supportedPlatforms ∧
    genCE "ios" = .error "boom" ∧
    genCE "web" = .ok { files := ["f.txt"], struct := "MVVM" } ∧
    generateMultiPlatformApp genCE ["ios", "web"] = .error "boom" ∧
    ¬ ∃ m, generateMultiPlatformApp genCE ["ios", "web"] = .ok m := by
  refine ⟨by decide, rfl, rfl, rfl, ?_⟩
  rintro ⟨m, hm⟩
  rw [show generateMultiPlatformApp genCE ["ios", "web"] = Except.error "boom" from rfl]
    at hm
  exact Except.noConfusion hm

/-- C1 as amended: when every requested supported platform's agent succeeds,
the coordinator returns one entry per requested platform in request order —
`success:true` with the agent's files for supported platforms and the
`success:false` not-supported entry for unsupported ones; but as soon as any
requested supported platform's agent throws, the whole call rejects with an
agent error and no result map is produced, so a sibling's failure does
abort the aggregate result. -/
theorem claim_C1 (gen : String → Except String GenOutput) (ps : List String) :
    ((∀ p ∈ ps, p ∈ supportedPlatforms → ∃ o, gen p = .ok o) →
      ∃ m, generateMultiPlatformApp gen ps = .ok m ∧
        m.map Prod.fst = ps ∧
        ∀ pr ∈ m,
          (pr.1 ∈ supportedPlatforms → ∃ o, gen pr.1 = .ok o ∧ pr.2 = mkSuccess o) ∧
          (pr.1 ∉ supportedPlatforms → pr.2 = unsupportedResult pr.1)) ∧
    ((∃ p ∈ ps, p ∈ supportedPlatforms ∧ ∃ e, gen p = .error e) →
      ∃ e, generateMultiPlatformApp gen ps = .error e) := by
  induction ps with
  | nil =>
    constructor
    · intro _
      exact ⟨[], rfl, rfl, by simp⟩
    · rintro ⟨p, hp, -⟩
      simp at hp
  | cons p rest ih =>
    constructor
    · intro hall
      have hrest := ih.1 (fun q hq hs => hall q (List.mem_cons_of_mem p hq) hs)
      obtain ⟨m, hm, hmap, hprops⟩ := hrest
      by_cases hsup : p ∈ supportedPlatforms
      · obtain ⟨o, ho⟩ := hall p (List.mem_cons_self p rest) hsup
        refine ⟨(p, mkSuccess o) :: m, ?_, by simp [hmap], ?_⟩
        · simp [generateMultiPlatformApp, hsup, ho, hm]
        · intro pr hpr
          rcases List.mem_cons.mp hpr with rfl | hpr'
          · exact ⟨fun _ => ⟨o, ho, rfl⟩, fun hns => absurd hsup hns⟩
          · exact hprops pr hpr'
      · refine ⟨(p, unsupportedResult p) :: m, ?_, by simp [hmap], ?_⟩
        · simp [generateMultiPlatformApp, hsup, hm]
        · intro pr hpr
          rcases List.mem_cons.mp hpr with rfl | hpr'
          · exact ⟨fun hs => absurd hs hsup, fun _ => rfl⟩
          · exact hprops pr hpr'
    · rintro ⟨q, hq, hqs, e, he⟩
      rcases List.mem_cons.mp hq with rfl | hq'
      · exact ⟨e, by simp [generateMultiPlatformApp, hqs, he]⟩
      · obtain ⟨e', he'⟩ := ih.2 ⟨q, hq', hqs, e, he⟩
        by_cases hsup : p ∈ supportedPlatforms
        · cases hgp : gen p with
          | error e2 => exact ⟨e2, by simp [generateMultiPlatformApp, hsup, hgp]⟩
          | ok o => exact ⟨e', by simp [generateMultiPlatformApp, hsup, hgp, he']⟩
        · exact ⟨e', by simp [generateMultiPlatformApp, hsup, he']⟩

/-- Witness for C1: an all-success request over a supported and an
unsupported platform, and a rejecting request with one failing agent. -/
theorem claim_C1_witness :
    (∃ m, generateMultiPlatformApp genOK ["ios", "desktop"] = .ok m ∧
      m.map Prod.fst = ["ios", "desktop"] ∧
      ∀ pr ∈ m,
        (pr.1 ∈ supportedPlatforms → ∃ o, genOK pr.1 = .ok o ∧ pr.2 = mkSuccess o) ∧
        (pr.1 ∉ supportedPlatforms → pr.2 = unsupportedResult pr.1)) ∧
    (∃ e, generateMultiPlatformApp genCE ["ios", "web"] = .error e) := by
  constructor
  · exact (claim_C1 genOK ["ios", "desktop"]).1
      (fun p _ _ => ⟨{ files := ["a.txt"], struct := "MVVM" }, rfl⟩)
  · exact (claim_C1 genCE ["ios", "web"]).2 ⟨"ios", by decide, by decide, "boom", rfl⟩

end Coordinator
